import Mathlib

/-
Verification of the hacker-news viewer's data-resolution pipeline.

The data model is embedded from `src/types.rs`; the hostname display logic
is embedded from `src/main.rs` (`StoryListing`).  The `api` module (story
resolver, comment tree resolver, listing provider, preview coordinator) is
not part of the source tree; those operations are modelled from the spec
(sections 4.2 to 4.5) and each such definition is marked
`Modelled from the spec:` in its doc comment.
-/

namespace HackerNews

/-! ## Error kinds (spec section 7) -/

/-- Error kinds of the Remote Item Gateway, spec section 7:
`NotFound`, `NetworkError`, `DecodeError`. -/
inductive GatewayError where
  | NotFound
  | NetworkError
  | DecodeError
deriving Repr, DecidableEq

/-- Errors produced by the resolvers: a gateway error propagated unmodified
in kind, or the comment-recursion depth guard tripping (spec section 7). -/
inductive ResolveError where
  | gateway (e : GatewayError)
  | DepthExceeded
deriving Repr, DecidableEq

/-! ## Timestamps

`types.rs` stores `time` as `chrono::DateTime<Utc>` and tags it
`#[serde(with = "chrono::serde::ts_seconds")]`: on the wire the field is an
integer of Unix epoch seconds.  `chrono` represents an instant as a day
count plus seconds within the day (split by Euclidean division, so the
seconds-of-day component is non-negative also for pre-epoch instants);
serialization recombines them into epoch seconds. -/

/-- Timezone-aware instant as `chrono` represents it: days since the epoch
and seconds within that day. -/
structure DateTime where
  days : Int
  secs : Int
deriving Repr, DecidableEq

/-- Decoding direction of `chrono::serde::ts_seconds`: Unix epoch seconds
to an instant, splitting by Euclidean division and remainder. -/
def decodeTs (n : Int) : DateTime :=
  ⟨Int.ediv n 86400, Int.emod n 86400⟩

/-- Encoding direction of `chrono::serde::ts_seconds`: an instant back to
Unix epoch seconds (`DateTime::timestamp`). -/
def encodeTs (d : DateTime) : Int :=
  d.days * 86400 + d.secs

/-! ## Data model (`src/types.rs`) -/

/-- `StoryItem` from `types.rs`.  The Rust field `by` is spelled `by_`
here (`by` is reserved in Lean), and `r#type` is spelled `type`. -/
structure StoryItem where
  id : Int
  title : String
  url : Option String
  text : Option String
  by_ : String
  score : Int
  descendants : Int
  time : DateTime
  kids : List Int
  type : String
deriving Repr, DecidableEq

/-- `Comment` from `types.rs`: a comment node whose `sub_comments` holds
the resolved form of `kids`.  Declared as an inductive because the type
nests inside `List`. -/
inductive Comment where
  | mk (id : Int) (by_ : String) (text : String) (time : DateTime)
       (kids : List Int) (sub_comments : List Comment) (type : String)
deriving Repr

/-- Projection of the `id` field of a `Comment`. -/
def Comment.id : Comment → Int
  | .mk i _ _ _ _ _ _ => i

/-- Projection of the `by` field of a `Comment`. -/
def Comment.by_ : Comment → String
  | .mk _ b _ _ _ _ _ => b

/-- Projection of the `text` field of a `Comment`. -/
def Comment.text : Comment → String
  | .mk _ _ t _ _ _ _ => t

/-- Projection of the `time` field of a `Comment`. -/
def Comment.time : Comment → DateTime
  | .mk _ _ _ tm _ _ _ => tm

/-- Projection of the `kids` field of a `Comment`. -/
def Comment.kids : Comment → List Int
  | .mk _ _ _ _ k _ _ => k

/-- Projection of the `sub_comments` field of a `Comment`. -/
def Comment.sub_comments : Comment → List Comment
  | .mk _ _ _ _ _ s _ => s

/-- Projection of the `type` field of a `Comment`. -/
def Comment.type : Comment → String
  | .mk _ _ _ _ _ _ ty => ty

/-- Replace the `sub_comments` field of a comment, keeping every other
field (the struct-update `{ c with sub_comments: subs }` of the resolver). -/
def Comment.withSubComments : Comment → List Comment → Comment
  | .mk i b t tm k _ ty, subs => .mk i b t tm k subs ty

/-- `StoryPageData` from `types.rs`: a story item plus its fully resolved
comment tree. -/
structure StoryPageData where
  item : StoryItem
  comments : List Comment
deriving Repr

/-- `PreviewState` from `types.rs`: the tagged variant held by the single
shared preview slot. -/
inductive PreviewState where
  | Unset
  | Loading
  | Loaded (data : StoryPageData)
deriving Repr

/-! ## Gateway-boundary deserialization (`src/types.rs` serde derives)

A JSON object arriving from the gateway is modelled as a record of
optional fields (present or absent).  The derived `Deserialize` impl
fails on a missing field unless the field is `#[serde(default)]`
(substituting `""`, `0` or `[]`) or of type `Option` (substituting
`None`).  `time` decodes through the `ts_seconds` codec. -/

/-- Wire form of a `Comment` object: which fields the JSON object carries.
`time` is carried as raw epoch seconds. -/
structure CommentJson where
  id : Option Int
  by_ : Option String
  text : Option String
  time : Option Int
  kids : Option (List Int)
  sub_comments : Option (List Comment)
  type : Option String

/-- Derived deserialization of `Comment` per the serde attributes in
`types.rs`: `id`, `time` and `type` are required; `by`, `text`, `kids`
and `sub_comments` are `#[serde(default)]`. -/
def decodeComment (j : CommentJson) : Except GatewayError Comment :=
  match j.id with
  | none => .error GatewayError.DecodeError
  | some i =>
    match j.time with
    | none => .error GatewayError.DecodeError
    | some t =>
      match j.type with
      | none => .error GatewayError.DecodeError
      | some ty =>
        .ok (Comment.mk i (j.by_.getD "") (j.text.getD "") (decodeTs t)
          (j.kids.getD []) (j.sub_comments.getD []) ty)

/-- Wire form of a `StoryItem` object.  The `url` and `text` fields are
`Option<String>` in Rust, so an absent field decodes to `none`; here the
wire field is already the decoded option. -/
structure StoryItemJson where
  id : Option Int
  title : Option String
  url : Option String
  text : Option String
  by_ : Option String
  score : Option Int
  descendants : Option Int
  time : Option Int
  kids : Option (List Int)
  type : Option String

/-- Derived deserialization of `StoryItem` per the serde attributes in
`types.rs`: `id`, `title`, `time` and `type` are required; `by`, `score`,
`descendants` and `kids` are `#[serde(default)]`; `url` and `text` decode
to `none` when absent. -/
def decodeStoryItem (j : StoryItemJson) : Except GatewayError StoryItem :=
  match j.id with
  | none => .error GatewayError.DecodeError
  | some i =>
    match j.title with
    | none => .error GatewayError.DecodeError
    | some ttl =>
      match j.time with
      | none => .error GatewayError.DecodeError
      | some t =>
        match j.type with
        | none => .error GatewayError.DecodeError
        | some ty =>
          .ok { id := i, title := ttl, url := j.url, text := j.text,
                by_ := j.by_.getD "", score := j.score.getD 0,
                descendants := j.descendants.getD 0, time := decodeTs t,
                kids := j.kids.getD [], type := ty }

/-! ## Remote Item Gateway (spec section 4.1) -/

/-- Modelled from the spec: the Remote Item Gateway interface of section
4.1 (the fetching code lives in the repository's `api` module, which is
not under `src/`).  Each call independently either yields the item or
fails with a `GatewayError`. -/
structure Gateway where
  fetchTopStoryIds : Nat → Except GatewayError (List Int)
  fetchStory : Int → Except GatewayError StoryItem
  fetchComment : Int → Except GatewayError Comment

/-! ## Comment Tree Resolver (spec section 4.2) -/

/-- Resolve a sequence of ids with `f`, reassembling the results in the
original input order; the first failure fails the whole sequence (the
recommended all-or-nothing policy of spec section 4.2). -/
def resolveSeq (f : Int → Except ResolveError Comment) :
    List Int → Except ResolveError (List Comment)
  | [] => .ok []
  | i :: rest =>
    match f i with
    | .error e => .error e
    | .ok c =>
      match resolveSeq f rest with
      | .error e => .error e
      | .ok cs => .ok (c :: cs)

/-- Modelled from the spec: the Comment Tree Resolver of section 4.2 (the
repository's `api` module is not under `src/`).  With depth budget `d`,
fetch the comment for `i`, then resolve its `kids` into `sub_comments`
with budget `d - 1`; an exhausted budget is the depth guard tripping
(`DepthExceeded`), and a failed child fails the enclosing resolution as a
single unit (recommended policy). -/
def resolveComment (g : Gateway) : Nat → Int → Except ResolveError Comment
  | 0, _ => .error ResolveError.DepthExceeded
  | d + 1, i =>
    match g.fetchComment i with
    | .error e => .error (ResolveError.gateway e)
    | .ok c =>
      match resolveSeq (fun j => resolveComment g d j) c.kids with
      | .error e => .error e
      | .ok subs => .ok (c.withSubComments subs)

/-- Every comment-node fetch in the tree below `i` succeeds and the tree
fits within depth budget `d`: the success condition of spec section 8
("every node in S's comment tree (within the depth guard) fetched
successfully"). -/
def treeOk (g : Gateway) : Nat → Int → Bool
  | 0, _ => false
  | d + 1, i =>
    match g.fetchComment i with
    | .error _ => false
    | .ok c => c.kids.all (fun j => treeOk g d j)

/-! ## Story Resolver (spec section 4.3) -/

/-- Modelled from the spec: the Story Resolver of section 4.3 (the
repository's `api` module is not under `src/`).  Fetch the `StoryItem`;
on failure the whole resolution fails with the gateway's error kind; on
success resolve `item.kids` with the Comment Tree Resolver under depth
cap `cap` and produce `StoryPageData`. -/
def resolveStory (g : Gateway) (cap : Nat) (sid : Int) :
    Except ResolveError StoryPageData :=
  match g.fetchStory sid with
  | .error e => .error (ResolveError.gateway e)
  | .ok item =>
    match resolveSeq (fun k => resolveComment g cap k) item.kids with
    | .error e => .error e
    | .ok comments => .ok ⟨item, comments⟩

/-- The story fetch and every comment-node fetch in the story's tree
(within depth budget `cap`) succeed. -/
def storyTreeOk (g : Gateway) (cap : Nat) (sid : Int) : Bool :=
  match g.fetchStory sid with
  | .error _ => false
  | .ok item => item.kids.all (fun k => treeOk g cap k)

/-! ## Listing Provider (spec section 4.5) -/

/-- Modelled from the spec: `loadTopStories(limit)` of section 4.5 (the
repository's `api` module is not under `src/`).  Fetch up to `limit` top
story ids — a failure here is fatal — then resolve each id to a summary,
omitting entries whose individual fetch failed and keeping the original
id order. -/
def loadTopStories (g : Gateway) (limit : Nat) :
    Except GatewayError (List StoryItem) :=
  match g.fetchTopStoryIds limit with
  | .error e => .error e
  | .ok ids => .ok (ids.filterMap (fun i => (g.fetchStory i).toOption))

/-! ## Preview Coordinator (spec section 4.4) -/

/-- Modelled from the spec: the Preview Coordinator state of section 4.4
(the repository's `api` module is not under `src/`): the single shared
`PreviewState` slot plus a monotonically increasing request-token
counter; tokens `0 .. next - 1` have been issued and `next - 1` is the
latest. -/
structure CoordState where
  slot : PreviewState
  next : Nat
deriving Repr

/-- Modelled from the spec: `requestPreview` (section 4.4) generates a
fresh token (the old `next`), transitions the shared slot to `Loading`
and bumps the counter, which invalidates every earlier in-flight
request. -/
def requestPreview (s : CoordState) : CoordState :=
  { slot := PreviewState.Loading, next := s.next + 1 }

/-- Slot content a completed resolution produces: `Loaded data` on
success, and back to `Unset` on failure (the recommended failure
behavior of spec section 4.4). -/
def applyOutcome : Except ResolveError StoryPageData → PreviewState
  | .ok data => PreviewState.Loaded data
  | .error _ => PreviewState.Unset

/-- Modelled from the spec: completion of the resolution started for
`token` (section 4.4).  The result is applied to the shared slot only if
`token` is still the latest issued token; otherwise it is silently
discarded (superseded). -/
def completeResolution (s : CoordState) (token : Nat)
    (r : Except ResolveError StoryPageData) : CoordState :=
  if token + 1 = s.next then { s with slot := applyOutcome r } else s

/-! ## Hostname display (`src/main.rs`, `StoryListing`) -/

/-- Repeatedly remove the prefix `pat` from the front of `s` while it
matches: the semantics of Rust's `str::trim_start_matches` with a
string pattern, on character lists. -/
def stripAll (pat : List Char) (s : List Char) : List Char :=
  if h : pat ≠ [] ∧ pat.isPrefixOf s then
    stripAll pat (List.drop pat.length s)
  else s
termination_by s.length
decreasing_by
  have hl := h.2
  cases p : pat with
  | nil => exact absurd p h.1
  | cons a as =>
    rw [p] at hl
    cases s with
    | nil => simp [List.isPrefixOf] at hl
    | cons b bs =>
      simp [List.isPrefixOf] at hl
      have := hl.2.length_le
      simp only [List.length_drop, List.length_cons]
      omega

/-- Rust's `str::trim_start_matches` lifted to `String`. -/
def trimStartMatches (s pat : String) : String :=
  String.mk (stripAll pat.data s.data)

/-- Hostname computation of `StoryListing` in `main.rs`: take the url
(empty string when absent, `url.as_deref().unwrap_or_default()`), trim
the prefixes `"https://"`, `"http://"` and `"www."` in that order, and
fall back to `"google.com"` when the result is empty. -/
def listingHostname (url : Option String) : String :=
  let u := url.getD ""
  let hostname :=
    trimStartMatches (trimStartMatches (trimStartMatches u "https://") "http://") "www."
  if hostname.isEmpty then "google.com" else hostname

/-- Claim-side restatement of the hostname rule, following the claim's
words: strip the three scheme prefixes in order, show `"google.com"`
exactly when the url is absent or the stripped result is empty. -/
def claimHostname : Option String → String
  | none => "google.com"
  | some u =>
    let s :=
      trimStartMatches (trimStartMatches (trimStartMatches u "https://") "http://") "www."
    if s = "" then "google.com" else s

/-! ## Concrete gateways used to instantiate the theorems -/

/-- A story summary with the given id and kid list and defaulted
remaining fields, used by the concrete gateways below. -/
def sampleStory (i : Int) (ks : List Int) : StoryItem :=
  { id := i, title := "t", url := none, text := none, by_ := "a",
    score := 0, descendants := 0, time := ⟨0, 0⟩, kids := ks, type := "story" }

/-- A leaf comment with the given id and kid list. -/
def sampleComment (i : Int) (ks : List Int) : Comment :=
  Comment.mk i "a" "" ⟨0, 0⟩ ks [] "comment"

/-- Gateway whose story `1` has two leaf comments `10` and `11`. -/
def gwB : Gateway :=
  { fetchTopStoryIds := fun _ => .ok []
    fetchStory := fun i => .ok (sampleStory i [10, 11])
    fetchComment := fun i => .ok (sampleComment i []) }

/-- The page data `gwB` resolves for story `1` under depth cap `1`. -/
def gwBdata : StoryPageData :=
  ⟨sampleStory 1 [10, 11], [sampleComment 10 [], sampleComment 11 []]⟩

/-- Gateway that fails every fetch with a network error. -/
def gwFail : Gateway :=
  { fetchTopStoryIds := fun _ => .error GatewayError.NetworkError
    fetchStory := fun _ => .error GatewayError.NetworkError
    fetchComment := fun _ => .error GatewayError.NetworkError }

/-- Gateway whose story and comments all have empty `kids`. -/
def gwE : Gateway :=
  { fetchTopStoryIds := fun _ => .ok []
    fetchStory := fun i => .ok (sampleStory i [])
    fetchComment := fun i => .ok (sampleComment i []) }

/-- Gateway carrying a comment chain `0 → 1 → 2` of depth three. -/
def gwChain : Gateway :=
  { fetchTopStoryIds := fun _ => .ok []
    fetchStory := fun i => .ok (sampleStory i [0])
    fetchComment := fun i =>
      .ok (sampleComment i (if i < 2 then [i + 1] else [])) }

/-- Gateway listing ten top stories whose summary fetch fails for ids
`3` and `7`. -/
def gw10 : Gateway :=
  { fetchTopStoryIds := fun _ => .ok [1, 2, 3, 4, 5, 6, 7, 8, 9, 10]
    fetchStory := fun i =>
      if i = 3 ∨ i = 7 then .error GatewayError.NotFound
      else .ok (sampleStory i [])
    fetchComment := fun _ => .error GatewayError.NotFound }

/-! ## Helper lemmas about the resolvers -/

/-- A successful result reports `isOk`. -/
theorem isOk_ok (a : α) : (Except.ok a : Except ε α).isOk = true := rfl

/-- A failed result does not report `isOk`. -/
theorem isOk_error (e : ε) : (Except.error e : Except ε α).isOk = false := rfl

/-- Two pointwise-equal predicates give the same `List.all`. -/
theorem all_ext (l : List Int) (p q : Int → Bool) (h : ∀ a ∈ l, p a = q a) :
    l.all p = l.all q := by
  induction l with
  | nil => rfl
  | cons a rest ih =>
    simp only [List.all_cons, h a (List.mem_cons_self a rest),
      ih (fun b hb => h b (List.mem_cons_of_mem a hb))]

/-- `resolveSeq` succeeds exactly when every element resolves. -/
theorem resolveSeq_isOk (f : Int → Except ResolveError Comment) (l : List Int) :
    (resolveSeq f l).isOk = l.all (fun a => (f a).isOk) := by
  induction l with
  | nil => rfl
  | cons a rest ih =>
    simp only [resolveSeq, List.all_cons]
    cases hfa : f a with
    | error e => simp [isOk_error]
    | ok c =>
      cases hr : resolveSeq f rest with
      | error e =>
        rw [hr] at ih
        simp only [hr]
        rw [← ih]
        simp [isOk_ok, isOk_error]
      | ok cs =>
        rw [hr] at ih
        simp only [hr]
        rw [← ih]
        simp [isOk_ok]

/-- A successful `resolveSeq` preserves the input length. -/
theorem resolveSeq_ok_length (f : Int → Except ResolveError Comment) :
    ∀ (l : List Int) (out : List Comment),
      resolveSeq f l = .ok out → out.length = l.length := by
  intro l
  induction l with
  | nil => intro out h; simp [resolveSeq] at h; simp [← h]
  | cons a rest ih =>
    intro out h
    simp only [resolveSeq] at h
    cases hfa : f a with
    | error e => simp [hfa] at h
    | ok c =>
      simp only [hfa] at h
      cases hr : resolveSeq f rest with
      | error e => simp [hr] at h
      | ok cs =>
        simp only [hr] at h
        simp at h
        subst h
        simp [ih cs hr]

/-- A successful `resolveSeq` resolves position `k` of the input to
position `k` of the output. -/
theorem resolveSeq_ok_get (f : Int → Except ResolveError Comment) :
    ∀ (l : List Int) (out : List Comment), resolveSeq f l = .ok out →
      ∀ (k : Nat) (h1 : k < l.length) (h2 : k < out.length),
        f (l.get ⟨k, h1⟩) = .ok (out.get ⟨k, h2⟩) := by
  intro l
  induction l with
  | nil => intro out _ k h1 _; simp at h1
  | cons a rest ih =>
    intro out h k h1 h2
    simp only [resolveSeq] at h
    cases hfa : f a with
    | error e => simp [hfa] at h
    | ok c =>
      simp only [hfa] at h
      cases hr : resolveSeq f rest with
      | error e => simp [hr] at h
      | ok cs =>
        simp only [hr] at h
        simp at h
        subst h
        cases k with
        | zero => simpa using hfa
        | succ k' =>
          have := ih cs hr k' (by simpa using h1) (by simpa using h2)
          simpa using this

/-- A failing `resolveSeq` reports the failure of one of its elements. -/
theorem resolveSeq_error_mem (f : Int → Except ResolveError Comment) :
    ∀ (l : List Int) (e : ResolveError), resolveSeq f l = .error e →
      ∃ a ∈ l, f a = .error e := by
  intro l
  induction l with
  | nil => intro e h; simp [resolveSeq] at h
  | cons a rest ih =>
    intro e h
    simp only [resolveSeq] at h
    cases hfa : f a with
    | error e' =>
      simp [hfa] at h
      exact ⟨a, List.mem_cons_self a rest, by rw [hfa, h]⟩
    | ok c =>
      simp only [hfa] at h
      cases hr : resolveSeq f rest with
      | error e' =>
        simp [hr] at h
        obtain ⟨b, hb, hfb⟩ := ih e' hr
        exact ⟨b, List.mem_cons_of_mem a hb, by rw [hfb, h]⟩
      | ok cs => simp [hr] at h

/-- When every element either resolves or trips the depth guard, and at
least one does not resolve, the sequence fails with `DepthExceeded`. -/
theorem resolveSeq_all_de (f : Int → Except ResolveError Comment) :
    ∀ (l : List Int),
      (∀ a ∈ l, f a = .error ResolveError.DepthExceeded ∨ (f a).isOk = true) →
      l.all (fun a => (f a).isOk) = false →
      resolveSeq f l = .error ResolveError.DepthExceeded := by
  intro l
  induction l with
  | nil => intro _ hall; simp at hall
  | cons a rest ih =>
    intro hmem hall
    rcases hmem a (List.mem_cons_self a rest) with hde | hok
    · simp [resolveSeq, hde]
    · simp only [List.all_cons, hok, Bool.true_and] at hall
      obtain ⟨c, hc⟩ : ∃ c, f a = .ok c := by
        cases hfa : f a with
        | error e => rw [hfa, isOk_error] at hok; exact absurd hok (by simp)
        | ok c => exact ⟨c, rfl⟩
      have hrest := ih (fun b hb => hmem b (List.mem_cons_of_mem a hb)) hall
      simp [resolveSeq, hc, hrest]

/-- The Comment Tree Resolver succeeds exactly when every comment-node
fetch in the tree succeeds within the depth budget. -/
theorem resolveComment_isOk (g : Gateway) :
    ∀ (d : Nat) (i : Int), (resolveComment g d i).isOk = treeOk g d i := by
  intro d
  induction d with
  | zero => intro i; rfl
  | succ d ih =>
    intro i
    simp only [resolveComment, treeOk]
    cases hf : g.fetchComment i with
    | error e => rw [isOk_error]
    | ok c =>
      have h1 := resolveSeq_isOk (fun j => resolveComment g d j) c.kids
      have h2 : c.kids.all (fun j => (resolveComment g d j).isOk)
          = c.kids.all (fun j => treeOk g d j) :=
        all_ext _ _ _ (fun j _ => ih j)
      cases hs : resolveSeq (fun j => resolveComment g d j) c.kids with
      | error e =>
        rw [hs] at h1
        simp only [hs]
        rw [isOk_error] at h1
        rw [isOk_error, ← h2]
        exact h1
      | ok subs =>
        rw [hs] at h1
        simp only [hs]
        rw [isOk_ok] at h1
        rw [isOk_ok, ← h2, ← h1]

/-- A gateway-kind error coming out of the Comment Tree Resolver is the
error of an actual comment fetch (errors are propagated unmodified in
kind, never invented). -/
theorem resolveComment_err_gateway (g : Gateway) :
    ∀ (d : Nat) (i : Int) (e : GatewayError),
      resolveComment g d i = .error (ResolveError.gateway e) →
      ∃ j, g.fetchComment j = .error e := by
  intro d
  induction d with
  | zero => intro i e h; simp [resolveComment] at h
  | succ d ih =>
    intro i e h
    simp only [resolveComment] at h
    cases hf : g.fetchComment i with
    | error e' =>
      simp [hf] at h
      exact ⟨i, by rw [hf, h]⟩
    | ok c =>
      simp only [hf] at h
      cases hs : resolveSeq (fun j => resolveComment g d j) c.kids with
      | error e1 =>
        simp [hs] at h
        obtain ⟨a, _, hfa⟩ := resolveSeq_error_mem _ _ _ (h ▸ hs)
        exact ih a e hfa
      | ok subs => simp [hs] at h

/-- When the gateway returns each comment under its requested id, the
resolver returns a comment whose id is the requested one. -/
theorem resolveComment_id (g : Gateway)
    (hg : ∀ i c, g.fetchComment i = .ok c → c.id = i) :
    ∀ (d : Nat) (k : Int) (c : Comment),
      resolveComment g d k = .ok c → c.id = k := by
  intro d k c h
  cases d with
  | zero => simp [resolveComment] at h
  | succ d =>
    simp only [resolveComment] at h
    cases hf : g.fetchComment k with
    | error e => simp [hf] at h
    | ok c0 =>
      simp only [hf] at h
      cases hs : resolveSeq (fun j => resolveComment g d j) c0.kids with
      | error e => simp [hs] at h
      | ok subs =>
        simp [hs] at h
        rw [← h]
        have hid : (c0.withSubComments subs).id = c0.id := by
          cases c0; rfl
        rw [hid]
        exact hg k c0 hf

/-- A successful story resolution decomposes into a successful story
fetch and a successful ordered resolution of its `kids`. -/
theorem resolveStory_ok_inv (g : Gateway) (cap : Nat) (sid : Int)
    (data : StoryPageData) (h : resolveStory g cap sid = .ok data) :
    g.fetchStory sid = .ok data.item ∧
    resolveSeq (fun k => resolveComment g cap k) data.item.kids
      = .ok data.comments := by
  simp only [resolveStory] at h
  cases hf : g.fetchStory sid with
  | error e => simp [hf] at h
  | ok item =>
    simp only [hf] at h
    cases hs : resolveSeq (fun k => resolveComment g cap k) item.kids with
    | error e => simp [hs] at h
    | ok comments =>
      simp [hs] at h
      subst h
      exact ⟨rfl, hs⟩

/-- A tree that resolves fully under some budget but whose check fails
under budget `d` makes the resolver report `DepthExceeded` at `d`. -/
theorem resolveComment_depth_err (g : Gateway) :
    ∀ (d d' : Nat) (i : Int), treeOk g d' i = true → treeOk g d i = false →
      resolveComment g d i = .error ResolveError.DepthExceeded := by
  intro d
  induction d with
  | zero => intro d' i _ _; rfl
  | succ d ih =>
    intro d' i h' h
    cases d' with
    | zero => simp [treeOk] at h'
    | succ d'' =>
      cases hf : g.fetchComment i with
      | error e => simp [treeOk, hf] at h'
      | ok c =>
        simp only [treeOk, hf] at h' h
        have hmem : ∀ j ∈ c.kids,
            resolveComment g d j = .error ResolveError.DepthExceeded ∨
            (resolveComment g d j).isOk = true := by
          intro j hj
          cases htj : treeOk g d j with
          | false => exact Or.inl (ih d'' j (List.all_eq_true.mp h' j hj) htj)
          | true => exact Or.inr (by rw [resolveComment_isOk]; exact htj)
        have hall : c.kids.all (fun j => (resolveComment g d j).isOk) = false := by
          rw [all_ext _ _ _ (fun j _ => resolveComment_isOk g d j)]
          exact h
        have hde := resolveSeq_all_de _ _ hmem hall
        simp [resolveComment, hf, hde]

/-- `filterMap` keeps exactly the elements on which the function hits. -/
theorem length_filterMap_countP (f : Int → Option StoryItem) (l : List Int) :
    (l.filterMap f).length = l.countP (fun a => (f a).isSome) := by
  induction l with
  | nil => rfl
  | cons a rest ih =>
    cases hfa : f a with
    | none => simp [List.filterMap_cons, hfa, List.countP_cons, ih]
    | some b => simp [List.filterMap_cons, hfa, List.countP_cons, ih]

/-- Decoding epoch seconds and re-encoding the instant is the identity. -/
theorem encodeTs_decodeTs (n : Int) : encodeTs (decodeTs n) = n := by
  simp only [encodeTs, decodeTs]
  have h : 86400 * Int.ediv n 86400 + Int.emod n 86400 = n :=
    Int.ediv_add_emod n 86400
  linarith

/-- Stripping a prefix from the empty character list is the identity. -/
theorem stripAll_nil (pat : List Char) : stripAll pat [] = [] := by
  cases pat with
  | nil => rw [stripAll]; simp
  | cons a as => rw [stripAll]; simp [List.isPrefixOf]

/-- Trimming any pattern from the empty string yields the empty string. -/
theorem trim_empty (pat : String) : trimStartMatches "" pat = "" := by
  show String.mk (stripAll pat.data ("" : String).data) = ""
  rw [show ("" : String).data = [] from rfl, stripAll_nil]

/-! ## Claims -/

/-- C8: the `time` field crosses the gateway boundary as Unix epoch
seconds; decoding into the timezone-aware instant and re-encoding is the
identity on epoch-second values, and a decoded `Comment` re-encodes its
`time` to exactly the transmitted seconds. -/
theorem time_roundtrip :
    (∀ n : Int, encodeTs (decodeTs n) = n) ∧
    (∀ (j : CommentJson) (t : Int) (c : Comment),
      j.time = some t → decodeComment j = .ok c → encodeTs c.time = t) := by
  constructor
  · exact encodeTs_decodeTs
  · intro j t c ht hc
    cases hi : j.id with
    | none => simp [decodeComment, hi] at hc
    | some i =>
      cases hty : j.type with
      | none => simp [decodeComment, hi, ht, hty] at hc
      | some ty =>
        simp [decodeComment, hi, ht, hty] at hc
        subst hc
        simp [Comment.time]
        exact encodeTs_decodeTs t

/-- C8 witness: a concrete decoded comment re-encodes its time field to
the transmitted epoch seconds. -/
theorem time_roundtrip_witness :
    (⟨some 1, none, none, some 1700000000, none, none, some "comment"⟩ :
        CommentJson).time = some 1700000000 ∧
    decodeComment ⟨some 1, none, none, some 1700000000, none, none, some "comment"⟩
      = .ok (Comment.mk 1 "" "" (decodeTs 1700000000) [] [] "comment") ∧
    encodeTs (Comment.mk 1 "" "" (decodeTs 1700000000) [] [] "comment").time
      = 1700000000 :=
  ⟨rfl, rfl, time_roundtrip.2 ⟨some 1, none, none, some 1700000000, none, none,
    some "comment"⟩ 1700000000 (Comment.mk 1 "" "" (decodeTs 1700000000) [] []
    "comment") rfl rfl⟩

/-- C10: deserialization tolerates absent `by`, `text`, `score`,
`descendants`, `kids` and `sub_comments` fields by substituting the
defaults (empty string, zero, empty sequence); only `id`, `title` (for a
story), `time` and the `type` tag are required, and a missing required
field is a decode error. -/
theorem decode_defaults :
    (∀ (j : CommentJson) (i t : Int) (ty : String),
      j.id = some i → j.time = some t → j.type = some ty →
      decodeComment j = .ok (Comment.mk i (j.by_.getD "") (j.text.getD "")
        (decodeTs t) (j.kids.getD []) (j.sub_comments.getD []) ty)) ∧
    (∀ j : CommentJson, j.id = none ∨ j.time = none ∨ j.type = none →
      decodeComment j = .error GatewayError.DecodeError) ∧
    (∀ (j : StoryItemJson) (i t : Int) (ttl ty : String),
      j.id = some i → j.title = some ttl → j.time = some t → j.type = some ty →
      decodeStoryItem j = .ok (StoryItem.mk i ttl j.url j.text
        (j.by_.getD "") (j.score.getD 0) (j.descendants.getD 0)
        (decodeTs t) (j.kids.getD []) ty)) ∧
    (∀ j : StoryItemJson,
      j.id = none ∨ j.title = none ∨ j.time = none ∨ j.type = none →
      decodeStoryItem j = .error GatewayError.DecodeError) := by
  refine ⟨?_, ?_, ?_, ?_⟩
  · intro j i t ty hi ht hty
    simp [decodeComment, hi, ht, hty]
  · intro j h
    rcases h with h | h | h
    · simp [decodeComment, h]
    · cases hi : j.id with
      | none => simp [decodeComment, hi]
      | some i => simp [decodeComment, hi, h]
    · cases hi : j.id with
      | none => simp [decodeComment, hi]
      | some i =>
        cases htm : j.time with
        | none => simp [decodeComment, hi, htm]
        | some t => simp [decodeComment, hi, htm, h]
  · intro j i t ttl ty hi httl ht hty
    simp [decodeStoryItem, hi, httl, ht, hty]
  · intro j h
    rcases h with h | h | h | h
    · simp [decodeStoryItem, h]
    · cases hi : j.id with
      | none => simp [decodeStoryItem, hi]
      | some i => simp [decodeStoryItem, hi, h]
    · cases hi : j.id with
      | none => simp [decodeStoryItem, hi]
      | some i =>
        cases httl : j.title with
        | none => simp [decodeStoryItem, hi, httl]
        | some ttl => simp [decodeStoryItem, hi, httl, h]
    · cases hi : j.id with
      | none => simp [decodeStoryItem, hi]
      | some i =>
        cases httl : j.title with
        | none => simp [decodeStoryItem, hi, httl]
        | some ttl =>
          cases htm : j.time with
          | none => simp [decodeStoryItem, hi, httl, htm]
          | some t => simp [decodeStoryItem, hi, httl, htm, h]

/-- C10 witness: a comment object carrying only `id`, `time` and `type`
decodes with the defaults substituted, and one missing `id` is a decode
error. -/
theorem decode_defaults_witness :
    decodeComment ⟨some 7, none, none, some 0, none, none, some "comment"⟩
      = .ok (Comment.mk 7 "" "" (decodeTs 0) [] [] "comment") ∧
    decodeComment ⟨none, none, none, some 0, none, none, some "comment"⟩
      = .error GatewayError.DecodeError :=
  ⟨decode_defaults.1 ⟨some 7, none, none, some 0, none, none, some "comment"⟩
      7 0 "comment" rfl rfl rfl,
    decode_defaults.2.1 ⟨none, none, none, some 0, none, none, some "comment"⟩
      (Or.inl rfl)⟩

/-- C9: the displayed hostname of a list entry is the url with the
prefixes `"https://"`, `"http://"` and `"www."` stripped in that order
(each stripped repeatedly, the semantics of `trim_start_matches`), and is
exactly `"google.com"` when the url is absent or the stripped result is
empty. -/
theorem hostname_display :
    ∀ url : Option String, listingHostname url = claimHostname url := by
  intro url
  cases url with
  | none =>
    show (if (trimStartMatches (trimStartMatches (trimStartMatches ""
        "https://") "http://") "www.").isEmpty then "google.com"
      else trimStartMatches (trimStartMatches (trimStartMatches ""
        "https://") "http://") "www.") = "google.com"
    rw [trim_empty, trim_empty, trim_empty]
    rfl
  | some u =>
    show (if (trimStartMatches (trimStartMatches (trimStartMatches u
        "https://") "http://") "www.").isEmpty then "google.com"
      else trimStartMatches (trimStartMatches (trimStartMatches u
        "https://") "http://") "www.") = claimHostname (some u)
    simp only [claimHostname]
    by_cases h : trimStartMatches (trimStartMatches (trimStartMatches u
        "https://") "http://") "www." = ""
    · simp [h, String.isEmpty_iff]
    · simp [h, String.isEmpty_iff]

/-- C1: after `requestPreview(A)` (token `s0.next`) and then
`requestPreview(B)` (token `s0.next + 1`) issued before A resolves, A's
completion is discarded without touching the state, and whichever order
the two completions arrive in, the slot ends holding B's outcome
(`Loaded` B's data, or B's failure state) — never A's. -/
theorem preview_supersession (s0 : CoordState)
    (ra rb : Except ResolveError StoryPageData) :
    completeResolution (requestPreview (requestPreview s0)) s0.next ra
      = requestPreview (requestPreview s0) ∧
    (requestPreview (requestPreview s0)).slot = PreviewState.Loading ∧
    (completeResolution (completeResolution (requestPreview (requestPreview s0))
      s0.next ra) (s0.next + 1) rb).slot = applyOutcome rb ∧
    (completeResolution (completeResolution (requestPreview (requestPreview s0))
      (s0.next + 1) rb) s0.next ra).slot = applyOutcome rb := by
  have hne : ¬(s0.next + 1 = s0.next + 1 + 1) := by omega
  refine ⟨?_, rfl, ?_, ?_⟩
  · simp [requestPreview, completeResolution, hne]
  · simp [requestPreview, completeResolution, hne]
  · simp [requestPreview, completeResolution, hne]

/-- C5: `PreviewState` has exactly the three states `Unset`, `Loading`
and `Loaded`, pairwise distinct; a request moves the slot to `Loading`
from any state, a current completion moves it to `Loaded` or back to
`Unset`, and a superseded (non-latest) token's completion is never
written into the slot. -/
theorem previewState_discipline :
    (∀ p : PreviewState, p = PreviewState.Unset ∨ p = PreviewState.Loading ∨
      ∃ d, p = PreviewState.Loaded d) ∧
    (PreviewState.Unset ≠ PreviewState.Loading ∧
      ∀ d, PreviewState.Loaded d ≠ PreviewState.Unset ∧
        PreviewState.Loaded d ≠ PreviewState.Loading) ∧
    (∀ s : CoordState, (requestPreview s).slot = PreviewState.Loading) ∧
    (∀ (s : CoordState) (t : Nat) (r : Except ResolveError StoryPageData),
      t + 1 = s.next → (completeResolution s t r).slot = applyOutcome r) ∧
    (∀ r : Except ResolveError StoryPageData,
      applyOutcome r = PreviewState.Unset ∨
      ∃ d, applyOutcome r = PreviewState.Loaded d) ∧
    (∀ (s : CoordState) (t : Nat) (r : Except ResolveError StoryPageData),
      t + 1 ≠ s.next → completeResolution s t r = s) := by
  refine ⟨?_, ⟨?_, ?_⟩, ?_, ?_, ?_, ?_⟩
  · intro p
    cases p with
    | Unset => exact Or.inl rfl
    | Loading => exact Or.inr (Or.inl rfl)
    | Loaded d => exact Or.inr (Or.inr ⟨d, rfl⟩)
  · intro h; cases h
  · intro d
    exact ⟨(fun h => by cases h), (fun h => by cases h)⟩
  · intro s; rfl
  · intro s t r h
    simp [completeResolution, h]
  · intro r
    cases r with
    | ok d => exact Or.inr ⟨d, rfl⟩
    | error e => exact Or.inl rfl
  · intro s t r h
    simp [completeResolution, h]

/-- C5 witness: at a concrete coordinator state, the current token's
completion is applied to the slot and a stale token's completion leaves
the state untouched. -/
theorem previewState_discipline_witness :
    (completeResolution ⟨PreviewState.Loading, 1⟩ 0
      (.error ResolveError.DepthExceeded)).slot
      = applyOutcome (.error ResolveError.DepthExceeded) ∧
    completeResolution ⟨PreviewState.Loading, 1⟩ 5
      (.error ResolveError.DepthExceeded) = ⟨PreviewState.Loading, 1⟩ :=
  ⟨previewState_discipline.2.2.2.1 ⟨PreviewState.Loading, 1⟩ 0
      (.error ResolveError.DepthExceeded) rfl,
    previewState_discipline.2.2.2.2.2 ⟨PreviewState.Loading, 1⟩ 5
      (.error ResolveError.DepthExceeded) (by decide)⟩

/-- C2: a successfully resolved `StoryPageData` has as many comments as
`item.kids`, and position `k` of `comments` is exactly the resolution of
`item.kids[k]` — whose id equals `item.kids[k]` whenever the gateway
serves each comment under its requested id. -/
theorem comments_match_kids (g : Gateway) (cap : Nat) (sid : Int)
    (data : StoryPageData)
    (hg : ∀ i c, g.fetchComment i = .ok c → c.id = i)
    (h : resolveStory g cap sid = .ok data) :
    data.comments.length = data.item.kids.length ∧
    ∀ (k : Nat) (h1 : k < data.item.kids.length) (h2 : k < data.comments.length),
      resolveComment g cap (data.item.kids.get ⟨k, h1⟩)
        = .ok (data.comments.get ⟨k, h2⟩) ∧
      (data.comments.get ⟨k, h2⟩).id = data.item.kids.get ⟨k, h1⟩ := by
  obtain ⟨hf, hs⟩ := resolveStory_ok_inv g cap sid data h
  refine ⟨resolveSeq_ok_length _ _ _ hs, ?_⟩
  intro k h1 h2
  have hget := resolveSeq_ok_get _ _ _ hs k h1 h2
  exact ⟨hget, resolveComment_id g hg cap _ _ hget⟩

/-- C2 witness: the concrete gateway `gwB` resolves story `1` to
`gwBdata`, whose comment list matches `kids = [10, 11]` in length and
position. -/
theorem comments_match_kids_witness :
    resolveStory gwB 1 1 = .ok gwBdata ∧
    gwBdata.comments.length = gwBdata.item.kids.length ∧
    (gwBdata.comments.get ⟨0, by decide⟩).id
      = gwBdata.item.kids.get ⟨0, by decide⟩ := by
  have hg : ∀ i c, gwB.fetchComment i = .ok c → c.id = i := by
    intro i c h
    injection h with h
    rw [← h]
    rfl
  have h := comments_match_kids gwB 1 1 gwBdata hg rfl
  exact ⟨rfl, h.1, (h.2 0 (by decide) (by decide)).2⟩

/-- C3: story resolution succeeds exactly when the story fetch and every
comment-node fetch in its tree succeed within the depth guard; a story
fetch failure fails the whole resolution with the gateway's error kind,
and every gateway-kind failure of a resolution is the error of an actual
fetch — no partial `StoryPageData` is ever produced. -/
theorem resolution_all_or_nothing :
    (∀ (g : Gateway) (cap : Nat) (sid : Int),
      (resolveStory g cap sid).isOk = storyTreeOk g cap sid) ∧
    (∀ (g : Gateway) (cap : Nat) (sid : Int) (e : GatewayError),
      g.fetchStory sid = .error e →
      resolveStory g cap sid = .error (ResolveError.gateway e)) ∧
    (∀ (g : Gateway) (cap : Nat) (sid : Int) (e : GatewayError),
      resolveStory g cap sid = .error (ResolveError.gateway e) →
      g.fetchStory sid = .error e ∨ ∃ j, g.fetchComment j = .error e) := by
  refine ⟨?_, ?_, ?_⟩
  · intro g cap sid
    simp only [resolveStory, storyTreeOk]
    cases hf : g.fetchStory sid with
    | error e => rw [isOk_error]
    | ok item =>
      have h1 := resolveSeq_isOk (fun k => resolveComment g cap k) item.kids
      have h2 : item.kids.all (fun k => (resolveComment g cap k).isOk)
          = item.kids.all (fun k => treeOk g cap k) :=
        all_ext _ _ _ (fun k _ => resolveComment_isOk g cap k)
      cases hs : resolveSeq (fun k => resolveComment g cap k) item.kids with
      | error e =>
        rw [hs] at h1
        simp only [hs]
        rw [isOk_error] at h1
        rw [isOk_error, ← h2]
        exact h1
      | ok comments =>
        rw [hs] at h1
        simp only [hs]
        rw [isOk_ok] at h1
        rw [isOk_ok, ← h2, ← h1]
  · intro g cap sid e h
    simp [resolveStory, h]
  · intro g cap sid e h
    simp only [resolveStory] at h
    cases hf : g.fetchStory sid with
    | error e' =>
      rw [hf] at h
      simp at h
      exact Or.inl (by rw [h])
    | ok item =>
      rw [hf] at h
      cases hs : resolveSeq (fun k => resolveComment g cap k) item.kids with
      | error e1 =>
        simp [hs] at h
        obtain ⟨a, _, hfa⟩ := resolveSeq_error_mem _ _ _ (h ▸ hs)
        exact Or.inr (resolveComment_err_gateway g cap a e hfa)
      | ok comments => simp [hs] at h

/-- C3 witness: against the always-failing gateway `gwFail`, resolving a
story fails with the gateway's network-error kind. -/
theorem resolution_all_or_nothing_witness :
    resolveStory gwFail 5 1 = .error (ResolveError.gateway
      GatewayError.NetworkError) :=
  resolution_all_or_nothing.2.1 gwFail 5 1 GatewayError.NetworkError rfl

/-- C6: an empty `kids` list resolves to an empty `comments`
(respectively `sub_comments`) sequence, not to an error. -/
theorem empty_kids_resolve :
    (∀ (g : Gateway) (cap : Nat) (sid : Int) (item : StoryItem),
      g.fetchStory sid = .ok item → item.kids = [] →
      resolveStory g cap sid = .ok ⟨item, []⟩) ∧
    (∀ (g : Gateway) (d : Nat) (i : Int) (c : Comment),
      g.fetchComment i = .ok c → c.kids = [] →
      resolveComment g (d + 1) i = .ok (c.withSubComments [])) := by
  constructor
  · intro g cap sid item hf hk
    simp [resolveStory, hf, hk, resolveSeq]
  · intro g d i c hf hk
    simp [resolveComment, hf, hk, resolveSeq]

/-- C6 witness: the gateway `gwE`, whose items have empty `kids`,
resolves story `1` and comment `5` to empty comment sequences. -/
theorem empty_kids_resolve_witness :
    resolveStory gwE 0 1 = .ok ⟨sampleStory 1 [], []⟩ ∧
    resolveComment gwE 1 5 = .ok ((sampleComment 5 []).withSubComments []) :=
  ⟨empty_kids_resolve.1 gwE 0 1 (sampleStory 1 []) rfl rfl,
    empty_kids_resolve.2 gwE 0 5 (sampleComment 5 []) rfl rfl⟩

/-- C7: a comment tree that resolves fully under some depth budget but
does not fit under the cap `d` makes resolution at `d` fail with
`DepthExceeded` — and under the uniform all-or-nothing policy a too-deep
subtree fails the whole story the same way.  The resolver is a total
function, so recursion is always bounded by the cap. -/
theorem depth_guard_exceeded :
    (∀ (g : Gateway) (d d' : Nat) (i : Int),
      treeOk g d' i = true → treeOk g d i = false →
      resolveComment g d i = .error ResolveError.DepthExceeded) ∧
    (∀ (g : Gateway) (d d' : Nat) (sid : Int) (item : StoryItem),
      g.fetchStory sid = .ok item →
      (∀ k ∈ item.kids, treeOk g d' k = true) →
      (∃ k ∈ item.kids, treeOk g d k = false) →
      resolveStory g d sid = .error ResolveError.DepthExceeded) := by
  constructor
  · exact fun g d d' i h' h => resolveComment_depth_err g d d' i h' h
  · intro g d d' sid item hf hall hex
    obtain ⟨k, hk, hkf⟩ := hex
    have hmem : ∀ j ∈ item.kids,
        resolveComment g d j = .error ResolveError.DepthExceeded ∨
        (resolveComment g d j).isOk = true := by
      intro j hj
      cases htj : treeOk g d j with
      | false => exact Or.inl (resolveComment_depth_err g d d' j (hall j hj) htj)
      | true => exact Or.inr (by rw [resolveComment_isOk]; exact htj)
    have hfalse : item.kids.all (fun j => (resolveComment g d j).isOk) = false := by
      rw [all_ext _ _ _ (fun j _ => resolveComment_isOk g d j)]
      cases hA : item.kids.all (fun j => treeOk g d j) with
      | false => rfl
      | true => exact absurd (List.all_eq_true.mp hA k hk) (by rw [hkf]; simp)
    have hde := resolveSeq_all_de _ _ hmem hfalse
    simp [resolveStory, hf, hde]

/-- C7 witness: the chain gateway's comment tree under id `0` has depth
three (it resolves fully under budget 3), so resolving with cap 2 fails
with `DepthExceeded`. -/
theorem depth_guard_exceeded_witness :
    treeOk gwChain 3 0 = true ∧ treeOk gwChain 2 0 = false ∧
    resolveComment gwChain 2 0 = .error ResolveError.DepthExceeded :=
  ⟨rfl, rfl, depth_guard_exceeded.1 gwChain 2 3 0 rfl rfl⟩

/-- C4: a failure fetching the id list fails `loadTopStories` with that
error; when the id list arrives, the operation always succeeds, returning
exactly the successfully resolved summaries in the original id order
(failed entries omitted), so the returned count is the number of ids
whose summary fetch succeeded. -/
theorem loadTopStories_omits_failures :
    (∀ (g : Gateway) (limit : Nat) (e : GatewayError),
      g.fetchTopStoryIds limit = .error e → loadTopStories g limit = .error e) ∧
    (∀ (g : Gateway) (limit : Nat) (ids : List Int),
      g.fetchTopStoryIds limit = .ok ids →
      loadTopStories g limit
        = .ok (ids.filterMap (fun i => (g.fetchStory i).toOption)) ∧
      (ids.filterMap (fun i => (g.fetchStory i).toOption)).length
        = ids.countP (fun i => ((g.fetchStory i).toOption).isSome)) := by
  constructor
  · intro g limit e h
    simp [loadTopStories, h]
  · intro g limit ids h
    exact ⟨by simp [loadTopStories, h], length_filterMap_countP _ ids⟩

/-- C4 witness: with `gw10` (ten requested summaries, ids 3 and 7
failing), the listing succeeds with exactly eight entries and no error
escapes. -/
theorem loadTopStories_omits_failures_witness :
    loadTopStories gw10 10 = .ok ([1, 2, 3, 4, 5, 6, 7, 8, 9, 10].filterMap
      (fun i => (gw10.fetchStory i).toOption)) ∧
    ([1, 2, 3, 4, 5, 6, 7, 8, 9, 10].filterMap
      (fun i => (gw10.fetchStory i).toOption)).length = 8 := by
  have h := loadTopStories_omits_failures.2 gw10 10
    [1, 2, 3, 4, 5, 6, 7, 8, 9, 10] rfl
  exact ⟨h.1, by decide⟩

end HackerNews
